import Mathlib

/-
Verification of the job-offer-analyzer extraction engine.

Shallow embedding of the extraction orchestration code:
  * `utils/linkedin_scrapper.py`  (LinkedinExtractor: parse_job_listings,
    populate_job_details, scrape_jobs)
  * `utils/indeed_scrapper.py`    (IndeedExtractor: extract_job_listing_data,
    extract_job_details_data)
  * `utils/local_llm/language_detector.py` and
    `src/language_detector/__init__.py` (LanguageDetector.detect,
    LanguageDetector.detect_with_confidence)
  * `utils/remote_llm/openai_job_analyser.py` (failure behaviour of
    OpenAIjobAnalyser.extract_job_data: it logs and re-raises)

External collaborators (HTTP fetch, BeautifulSoup selector extraction, the
fasttext model, the Azure OpenAI endpoint) are modelled as explicit function
parameters, exactly at the boundary the source calls them.  Raised Python
exceptions are modelled as `Except.error`; `fetch_page` returning `None` is
modelled as `Option.none`.  Python `datetime` values are modelled as rational
epoch seconds.
-/

namespace JobOffer

/-! ### Python string primitives used by the source -/

/-- Characters removed by Python `str.strip()` with no arguments. -/
def pyIsSpace (c : Char) : Bool :=
  c = ' ' || c = '\t' || c = '\n' || c = '\r' || c = '\x0b' || c = '\x0c'

/-- `str.strip()` on the underlying character list. -/
def stripChars (l : List Char) : List Char :=
  ((l.dropWhile pyIsSpace).reverse.dropWhile pyIsSpace).reverse

/-- Python `s.strip()`. -/
def pyStrip (s : String) : String :=
  String.mk (stripChars s.data)

/-- Python `s.lower()` (ASCII case folding, which covers the code points the
source compares: language codes and extracted titles). -/
def pyLower (s : String) : String :=
  String.mk (s.data.map Char.toLower)

/-- Python `s.split(sep)` for a one-character separator: splits at every
occurrence, never returns an empty list. -/
def splitChar (c : Char) : List Char → List (List Char)
  | [] => [[]]
  | x :: xs =>
    if x = c then [] :: splitChar c xs
    else
      match splitChar c xs with
      | [] => [[x]]
      | y :: ys => (x :: y) :: ys

/-- Python `s.replace('__label__', '')`: removes every (non-overlapping,
left-to-right) occurrence of the fasttext label marker. -/
def removeLabel : List Char → List Char
  | '_' :: '_' :: 'l' :: 'a' :: 'b' :: 'e' :: 'l' :: '_' :: '_' :: rest => removeLabel rest
  | c :: rest => c :: removeLabel rest
  | [] => []

/-- `job_url.split('-')[-1].split('?')[0]` — the job id derivation on line 227
of `linkedin_scrapper.py`. -/
def jobIdOfUrl (url : String) : String :=
  String.mk ((splitChar '?' ((splitChar '-' url.data).getLastD [])).headD [])

/-- Modelled from the spec (§4.1): the job id as the spec describes it — the
trailing path segment of the listing URL (the part after the last `/`) with the
query string stripped.  Stated only to compare with `jobIdOfUrl`, the
derivation the code actually performs. -/
def specJobIdOfUrl (url : String) : String :=
  String.mk ((splitChar '?' ((splitChar '/' url.data).getLastD [])).headD [])

/-! ### Language detector (`language_detector.py`, both copies are identical) -/

/-- The loaded fasttext model: for an input text, the first predicted label and
its score.  (The real scores are floats; the score component is irrelevant to
`detect` and is modelled as a rational.) -/
structure LanguageDetector where
  modelPredict : String → String × Rat

/-- `LanguageDetector.detect`: returns `"unknown"` for whitespace-only input,
otherwise runs the model on the fixed literal `"Hello world"` — not on `text`
— and strips the `__label__` marker from the first label. -/
def LanguageDetector.detect (d : LanguageDetector) (text : String) : String :=
  if pyStrip text = "" then "unknown"
  else String.mk (removeLabel (d.modelPredict "Hello world").1.data)

/-- `LanguageDetector.detect_with_confidence`: runs the model on the actual
input and also returns the first score. -/
def LanguageDetector.detectWithConfidence (d : LanguageDetector) (text : String) :
    String × Rat :=
  if pyStrip text = "" then ("unknown", 0)
  else (String.mk (removeLabel (d.modelPredict text).1.data), (d.modelPredict text).2)

/-! ### Data model (`utils/shared.py`) -/

/-- The shared `JobListing` dataclass as the LinkedIn extractor populates it.
`posted_time` holds the raw card text (`_get_text(node, '[class*=listdate]')`)
— the LinkedIn path never converts it.  `date_analyzed` is never set on the
LinkedIn path and keeps its `None` default. -/
structure JobListing where
  title : String := ""
  url : String := ""
  company : String := ""
  location : String := ""
  posted_time : String := ""
  seniority_level : String := ""
  employment_type : String := ""
  job_function : String := ""
  industries : String := ""
  required_studies : String := ""
  technologies_required : List String := []
  experience_years_needed : Int := 0
  salary_offered : Int := 0
  job_id : String := ""
  title_lang : String := ""
  description_lang : String := ""
  date_analyzed : Option Rat := none
  easy_apply : String := "No"
  source : String := "LinkedIn"
  deriving Repr, DecidableEq

/-- `JobAIanalysis` (`utils/shared.py`): result of one AI extraction call. -/
structure JobAIanalysis where
  required_studies : String
  technologies_required : List String
  experience_years_needed : Int
  salary_offered : Int
  token_cost : Nat
  deriving Repr, DecidableEq

/-! ### LinkedIn extractor configuration and environment -/

/-- The configuration fields of `LinkedinExtractor` that the extraction logic
reads (validated construction from environment variables is out of scope). -/
structure Config where
  positions : List String
  desired_language : String
  should_analyze : Bool
  max_jobs : Nat
  max_jobs_per_position : Nat

/-- One raw listing card, as seen through the selector helpers
(`_get_href(node, '[class*=_full-link]')`, `_get_text(...)`): missing markup
yields the empty string. -/
structure Card where
  jobUrl : String := ""
  title : String := ""
  company : String := ""
  location : String := ""
  postedTime : String := ""
  deriving Repr, DecidableEq

/-- The job-details page, as seen through the selector helpers: the extracted
description text and the stripped (label, value) pairs of the
`description__job-criteria-list` section. -/
structure DetailsDoc where
  description : String := ""
  criteria : List (String × String) := []
  deriving Repr, DecidableEq

/-- The external world of one crawl run: the fetched listing page per
(position, page index) — `none` models a failed `fetch_page` —, the fetched
details page per job id, the language detector, and the AI capability
(`error` models a raised exception). -/
structure Env where
  listPage : String → Nat → Option (List Card)
  detailsPage : String → Option DetailsDoc
  detector : LanguageDetector
  analyze : String → Except Unit JobAIanalysis

/-! ### `populate_job_details` (lines 152-192) -/

/-- One iteration of the criteria loop: the `criteria_mapping` label→field
assignment; unknown labels are ignored. -/
def applyCriterion (j : JobListing) (lv : String × String) : JobListing :=
  if lv.1 = "Seniority level" then { j with seniority_level := lv.2 }
  else if lv.1 = "Employment type" then { j with employment_type := lv.2 }
  else if lv.1 = "Job function" then { j with job_function := lv.2 }
  else if lv.1 = "Industries" then { j with industries := lv.2 }
  else j

/-- The criteria-section loop of `populate_job_details`. -/
def applyCriteria (j : JobListing) (items : List (String × String)) : JobListing :=
  items.foldl applyCriterion j

/-- `populate_job_details`: applies the criteria mapping, sets
`description_lang`, and — only when `should_analyze` and the lowered
description language equals `desired_language` — invokes the AI capability.
A failing AI call re-raises (`extract_job_data` logs and re-raises), modelled
as `Except.error`.  On success the four AI fields are merged and the token
cost is returned (added to `used_tokens` by the caller's state threading). -/
def populateJobDetails (cfg : Config) (det : LanguageDetector)
    (analyze : String → Except Unit JobAIanalysis)
    (j : JobListing) (jobDescription : String)
    (criteria : List (String × String)) : Except Unit (JobListing × Nat) :=
  let j1 := applyCriteria j criteria
  let j2 := { j1 with description_lang := det.detect jobDescription }
  if cfg.should_analyze ∧ pyLower j2.description_lang = cfg.desired_language then
    match analyze jobDescription with
    | .error e => .error e
    | .ok a =>
      .ok ({ j2 with
              required_studies := a.required_studies,
              technologies_required := a.technologies_required,
              experience_years_needed := a.experience_years_needed,
              salary_offered := a.salary_offered }, a.token_cost)
  else .ok (j2, 0)

/-! ### `parse_job_listings` (lines 194-278) -/

/-- `job_url.split('-')[-1].split('?')[0]` applied to a card. -/
def cardId (c : Card) : String := jobIdOfUrl c.jobUrl

/-- The duplicate check of lines 232-237: some already-collected listing has
the same `job_id`, or the same stripped-lowercased `(title, company)` pair. -/
def isDuplicate (listings : List JobListing) (jobId jobTitle jobCompany : String) : Bool :=
  listings.any fun l =>
    l.job_id == jobId ||
    (pyLower (pyStrip jobTitle) == pyLower (pyStrip l.title) &&
     pyLower (pyStrip jobCompany) == pyLower (pyStrip l.company))

/-- The candidate record built on lines 241-251: directly-observable card
fields plus the detected title language. -/
def cardRecord (env : Env) (c : Card) : JobListing :=
  let j : JobListing :=
    { title := c.title, url := c.jobUrl, company := c.company,
      location := c.location, posted_time := c.postedTime, job_id := cardId c }
  { j with title_lang := env.detector.detect j.title }

/-- The body of the per-card loop of `parse_job_listings` (lines 220-276).
Returns the admitted record (if any) and the AI tokens consumed while
processing this card.  All `continue` paths — missing URL, duplicate,
title-language mismatch, failed details fetch, a raised exception (caught by
the per-card handler), description-language mismatch — yield `none`. -/
def processNode (env : Env) (cfg : Config) (listings : List JobListing)
    (c : Card) : Option JobListing × Nat :=
  if c.jobUrl = "" then (none, 0)
  else if isDuplicate listings (cardId c) c.title c.company then (none, 0)
  else
    let j := cardRecord env c
    if pyLower j.title_lang ≠ cfg.desired_language then (none, 0)
    else
      match env.detailsPage j.job_id with
      | none => (none, 0)
      | some doc =>
        match populateJobDetails cfg env.detector env.analyze j doc.description doc.criteria with
        | .error _ => (none, 0)
        | .ok (j2, tok) =>
          (if pyLower j2.description_lang = cfg.desired_language then some j2 else none, tok)

/-- Accumulator of one `parse_job_listings` call: the (append-only) shared
collection, the `found_valid_jobs` flag, and the running `used_tokens`. -/
structure PageAcc where
  listings : List JobListing
  found : Bool
  tokens : Nat
  deriving Repr, DecidableEq

/-- The `for node in job_nodes` loop. -/
def processCards (env : Env) (cfg : Config) : PageAcc → List Card → PageAcc
  | acc, [] => acc
  | acc, c :: rest =>
    match processNode env cfg acc.listings c with
    | (some j, tok) =>
      processCards env cfg ⟨acc.listings ++ [j], true, acc.tokens + tok⟩ rest
    | (none, tok) =>
      processCards env cfg ⟨acc.listings, acc.found, acc.tokens + tok⟩ rest

/-- `parse_job_listings`: a failed listing-page fetch raises (`Except.error`);
an empty page returns `False`; otherwise every card is processed and
`found_valid_jobs` reports whether anything was appended. -/
def parseJobListings (env : Env) (cfg : Config) (listings : List JobListing)
    (tokens : Nat) (fetched : Option (List Card)) : Except Unit PageAcc :=
  match fetched with
  | none => .error ()
  | some [] => .ok ⟨listings, false, tokens⟩
  | some cards => .ok (processCards env cfg ⟨listings, false, tokens⟩ cards)

/-! ### `scrape_jobs` (lines 280-367) -/

/-- `MAX_EMPTY_PAGES` (line 296). -/
def MAX_EMPTY_PAGES : Nat := 3

/-- Result of the per-position `while` loop: the shared collection, the token
counter, `total_jobs`, `current_position_valid_jobs`, and — as ghost
instrumentation for the termination claims — the number of page attempts
(calls of `parse_job_listings`) the loop made. -/
structure PosResult where
  listings : List JobListing
  tokens : Nat
  total : Nat
  cur : Nat
  attempts : Nat
  deriving Repr, DecidableEq

/-- The per-position `while` loop of `scrape_jobs` (lines 308-364), with an
explicit fuel (the loop always terminates; theorems hold for every fuel or for
a sufficiently large one).  Faithful branch structure:
  * loop condition `cur < max_jobs_per_position ∧ total < max_jobs`;
  * a raised exception (failed listing fetch) increments the shared
    consecutive-empty-pages counter and retries the *same* page (the `except`
    block does not advance `page`), breaking at `MAX_EMPTY_PAGES`;
  * a page with no new valid jobs increments the counter and advances the
    page, breaking at `MAX_EMPTY_PAGES`;
  * a page with new jobs resets the counter, adds the net-new count to both
    counters, and breaks when the per-position quota is reached. -/
def posLoop (env : Env) (cfg : Config) (position : String) :
    Nat → List JobListing → Nat → Nat → Nat → Nat → Nat → PosResult
  | 0, listings, tokens, total, cur, _page, _empties =>
    ⟨listings, tokens, total, cur, 0⟩
  | fuel + 1, listings, tokens, total, cur, page, empties =>
    if cur < cfg.max_jobs_per_position ∧ total < cfg.max_jobs then
      match parseJobListings env cfg listings tokens (env.listPage position page) with
      | .error _ =>
        if MAX_EMPTY_PAGES ≤ empties + 1 then ⟨listings, tokens, total, cur, 1⟩
        else
          let r := posLoop env cfg position fuel listings tokens total cur page (empties + 1)
          { r with attempts := r.attempts + 1 }
      | .ok pr =>
        if pr.found then
          let newCount := pr.listings.length - listings.length
          if cfg.max_jobs_per_position ≤ cur + newCount then
            ⟨pr.listings, pr.tokens, total + newCount, cur + newCount, 1⟩
          else
            let r := posLoop env cfg position fuel pr.listings pr.tokens
                       (total + newCount) (cur + newCount) (page + 1) 0
            { r with attempts := r.attempts + 1 }
        else
          if MAX_EMPTY_PAGES ≤ empties + 1 then ⟨pr.listings, pr.tokens, total, cur, 1⟩
          else
            let r := posLoop env cfg position fuel pr.listings pr.tokens
                       total cur (page + 1) (empties + 1)
            { r with attempts := r.attempts + 1 }
    else ⟨listings, tokens, total, cur, 0⟩

/-- Result of the whole crawl. -/
structure CrawlResult where
  listings : List JobListing
  tokens : Nat
  total : Nat
  deriving Repr, DecidableEq

/-- The `for position in self.positions` loop of `scrape_jobs`: before every
position the global quota is checked (`break` once `total_jobs ≥ max_jobs`);
each position starts with `current_position_valid_jobs = 0`, `page = 0` and a
reset consecutive-empty-pages counter. -/
def crawlLoop (env : Env) (cfg : Config) (fuel : Nat) :
    List String → List JobListing → Nat → Nat → CrawlResult
  | [], listings, tokens, total => ⟨listings, tokens, total⟩
  | pos :: rest, listings, tokens, total =>
    if cfg.max_jobs ≤ total then ⟨listings, tokens, total⟩
    else
      let r := posLoop env cfg pos fuel listings tokens total 0 0 0
      crawlLoop env cfg fuel rest r.listings r.tokens r.total

/-- `scrape_jobs`: runs the crawl from the empty collection over all
configured positions. -/
def scrapeJobs (env : Env) (cfg : Config) (fuel : Nat) : CrawlResult :=
  crawlLoop env cfg fuel cfg.positions [] 0 0

/-! ### Indeed extractor (`utils/indeed_scrapper.py`) -/

/-- One raw Indeed job card (one entry of the `mosaic-provider-jobcards`
results array), restricted to the keys `extract_job_listing_data` reads.
`pubDate` is an epoch timestamp in milliseconds. -/
structure IndeedCard where
  displayTitle : String := ""
  company : String := ""
  formattedLocation : String := ""
  pubDate : Nat := 0
  jobTypes : Option (List String) := none
  misMatching : List String := []
  extractedSalary : Option (Int × Int × String) := none
  jobkey : String := ""
  indeedApplyEnabled : Bool := false
  deriving Repr, DecidableEq

/-- The shared `JobListing` dataclass as the Indeed extractor populates it
(Python assigns dynamically-typed values to the same fields: here
`posted_time` and `date_analyzed` hold datetimes, modelled as rational epoch
seconds, and `salary_offered` holds a formatted string or `None`). -/
structure IndeedJobListing where
  title : String := ""
  company : String := ""
  location : String := ""
  posted_time : Rat := 0
  employment_type : Option String := none
  technologies_required : List String := []
  salary_offered : Option String := none
  job_id : String := ""
  easy_apply : Bool := false
  source : String := ""
  title_lang : String := ""
  url : String := ""
  date_analyzed : Rat := 0
  description_lang : String := ""
  experience_years_needed : Int := 0
  required_studies : String := ""
  deriving Repr, DecidableEq

/-- The fields of `IndeedExtractor` that the two mapping methods read.
`execution_started_datetime` is `datetime.now()` captured once in
`__init__`. -/
structure IndeedState where
  detector : LanguageDetector
  should_analyze : Bool
  desired_language : String
  analyze : String → Except Unit JobAIanalysis
  execution_started_datetime : Rat
  base_url : String

/-- `build_indeed_job_details_url`. -/
def buildIndeedJobDetailsUrl (st : IndeedState) (jobId : String) : String :=
  st.base_url ++ "/viewjob?jk=" ++ jobId

/-- `f"{min} - {max} {type}"` for an extracted salary. -/
def formatSalary (s : Int × Int × String) : String :=
  toString s.1 ++ " - " ++ toString s.2.1 ++ " " ++ s.2.2

/-- `IndeedExtractor.extract_job_listing_data` (lines 181-218):
`posted_time = datetime.utcfromtimestamp(pubDate / 1000)` — an absolute
timestamp computed from the card's own epoch value, with no reference to any
"now" — and `date_analyzed = self.execution_started_datetime`, the run-start
instant captured once in `__init__`. -/
def extractJobListingData (st : IndeedState) (d : IndeedCard) : IndeedJobListing :=
  { title := d.displayTitle
    company := d.company
    location := d.formattedLocation
    posted_time := (d.pubDate : Rat) / 1000
    employment_type := d.jobTypes.map (String.intercalate ", ")
    technologies_required := d.misMatching
    salary_offered := d.extractedSalary.map formatSalary
    job_id := d.jobkey
    easy_apply := d.indeedApplyEnabled
    source := "Indeed"
    title_lang := st.detector.detect d.displayTitle
    url := buildIndeedJobDetailsUrl st d.jobkey
    date_analyzed := st.execution_started_datetime }

/-- `IndeedExtractor.extract_job_details_data` (lines 248-255): sets
`description_lang`; invokes the AI capability only when `should_analyze` and
the lowered description language equals `desired_language` (a failing call
raises, modelled as `Except.error`).  The cleaned description text
(`html_to_text(...)`) is taken as input, the HTML cleaning being collaborator
territory. -/
def extractJobDetailsData (st : IndeedState) (j : IndeedJobListing)
    (cleanDescription : String) : Except Unit IndeedJobListing :=
  let j1 := { j with description_lang := st.detector.detect cleanDescription }
  if st.should_analyze ∧ pyLower j1.description_lang = st.desired_language then
    match st.analyze cleanDescription with
    | .error e => .error e
    | .ok a =>
      .ok { j1 with
              experience_years_needed := a.experience_years_needed,
              required_studies := a.required_studies }
  else .ok j1

/-! ### Concrete fixtures

A concrete crawl world used by the counterexamples and witnesses: a fasttext
model whose first label is always `__label__en` (so `detect` returns `"en"`
for every non-whitespace input), details pages with an English description and
no criteria section, and small fixed listing pages. -/

/-- A model that always predicts English. -/
def detEn : LanguageDetector := ⟨fun _ => ("__label__en", 1)⟩

/-- An AI capability that always fails (raises). -/
def analyzeFail : String → Except Unit JobAIanalysis := fun _ => .error ()

/-- An AI capability that always succeeds with a fixed analysis. -/
def analyzeOk : String → Except Unit JobAIanalysis :=
  fun _ => .ok ⟨"Masters", ["python"], 3, 50000, 42⟩

/-- Details page served for every job id in the fixtures. -/
def docEn : DetailsDoc := ⟨"We build backend services.", []⟩

/-- First fixture card. -/
def cardA : Card :=
  { jobUrl := "https://www.linkedin.com/jobs/view/alpha-dev-101?refId=aa"
    title := "Alpha Dev", company := "Acme", location := "Paris"
    postedTime := "3 days ago" }

/-- Second fixture card. -/
def cardB : Card :=
  { jobUrl := "https://www.linkedin.com/jobs/view/beta-dev-202?refId=bb"
    title := "Beta Dev", company := "Bobco", location := "Lyon"
    postedTime := "5 hours ago" }

/-- Six pairwise-distinct fixture cards for the per-position scenario. -/
def cardN (n : Nat) : Card :=
  { jobUrl := "https://www.linkedin.com/jobs/view/role-" ++ toString n
    title := "Role " ++ toString n, company := "Firm " ++ toString n
    location := "Paris", postedTime := "1 day ago" }

/-- World for the global-quota claims: page 0 of every position serves
`[cardA, cardB]`, later pages are empty, AI disabled is irrelevant since the
configurations used with it disable analysis. -/
def envTwo : Env :=
  { listPage := fun _ p => if p = 0 then some [cardA, cardB] else some []
    detailsPage := fun _ => some docEn
    detector := detEn
    analyze := analyzeFail }

/-- World for the per-position scenario of the spec: three pages of two new
cards each, then empty pages. -/
def envSix : Env :=
  { listPage := fun _ p =>
      if p = 0 then some [cardN 1, cardN 2]
      else if p = 1 then some [cardN 3, cardN 4]
      else if p = 2 then some [cardN 5, cardN 6]
      else some []
    detailsPage := fun _ => some docEn
    detector := detEn
    analyze := analyzeFail }

/-- World whose every listing page is a successful fetch with zero cards. -/
def envEmpty : Env :=
  { listPage := fun _ _ => some []
    detailsPage := fun _ => some docEn
    detector := detEn
    analyze := analyzeFail }

/-- World with AI enabled in mind: details fetches succeed and the AI
capability always fails. -/
def envAIFail : Env :=
  { listPage := fun _ p => if p = 0 then some [cardA] else some []
    detailsPage := fun _ => some docEn
    detector := detEn
    analyze := analyzeFail }

/-- Global quota 1 (`max_jobs = 1`), generous per-position quota. -/
def cfgG1 : Config :=
  { positions := ["Software Developer"], desired_language := "en"
    should_analyze := false, max_jobs := 1, max_jobs_per_position := 100 }

/-- The spec's concrete scenario configuration: per-position quota 5. -/
def cfgP5 : Config :=
  { positions := ["Backend Engineer"], desired_language := "en"
    should_analyze := false, max_jobs := 100, max_jobs_per_position := 5 }

/-- No desired language configured (`JOB_DESIRED_LANGUAGE` unset ⇒ `""`). -/
def cfgNoLang : Config :=
  { positions := ["Software Developer"], desired_language := ""
    should_analyze := false, max_jobs := 100, max_jobs_per_position := 100 }

/-- AI analysis enabled with desired language `"en"`. -/
def cfgAI : Config :=
  { positions := ["Software Developer"], desired_language := "en"
    should_analyze := true, max_jobs := 100, max_jobs_per_position := 100 }

/-- The record the fixture world admits for `cardA` under `cfgG1`. -/
def jobA : JobListing :=
  { title := "Alpha Dev", url := cardA.jobUrl, company := "Acme"
    location := "Paris", posted_time := "3 days ago", job_id := "101"
    title_lang := "en", description_lang := "en" }

/-- The record the fixture world admits for `cardB` under `cfgG1`. -/
def jobB : JobListing :=
  { title := "Beta Dev", url := cardB.jobUrl, company := "Bobco"
    location := "Lyon", posted_time := "5 hours ago", job_id := "202"
    title_lang := "en", description_lang := "en" }

/-- A model that echoes its input as the predicted label. -/
def detEcho : LanguageDetector := ⟨fun t => (t, 0)⟩

/-! ### Helper lemmas -/

/-- The criteria mapping writes only the four criteria fields. -/
theorem applyCriterion_stable (j : JobListing) (lv : String × String) :
    (applyCriterion j lv).posted_time = j.posted_time ∧
    (applyCriterion j lv).job_id = j.job_id := by
  unfold applyCriterion
  split
  · exact ⟨rfl, rfl⟩
  split
  · exact ⟨rfl, rfl⟩
  split
  · exact ⟨rfl, rfl⟩
  split
  · exact ⟨rfl, rfl⟩
  · exact ⟨rfl, rfl⟩

/-- The criteria loop writes only the four criteria fields. -/
theorem applyCriteria_stable (items : List (String × String)) :
    ∀ j : JobListing, (applyCriteria j items).posted_time = j.posted_time ∧
      (applyCriteria j items).job_id = j.job_id := by
  induction items with
  | nil => exact fun j => ⟨rfl, rfl⟩
  | cons lv rest ih =>
    intro j
    have h1 := applyCriterion_stable j lv
    have h2 := ih (applyCriterion j lv)
    simp only [applyCriteria, List.foldl] at h2 ⊢
    exact ⟨h2.1.trans h1.1, h2.2.trans h1.2⟩

/-- `populate_job_details` never writes `posted_time` or `job_id`. -/
theorem populateJobDetails_stable (cfg : Config) (det : LanguageDetector)
    (analyze : String → Except Unit JobAIanalysis) (j : JobListing)
    (desc : String) (crit : List (String × String)) (j2 : JobListing) (tok : Nat)
    (h : populateJobDetails cfg det analyze j desc crit = .ok (j2, tok)) :
    j2.posted_time = j.posted_time ∧ j2.job_id = j.job_id := by
  simp only [populateJobDetails] at h
  have hc := applyCriteria_stable crit j
  split at h
  · split at h
    · exact absurd h (by simp)
    · simp only [Except.ok.injEq, Prod.mk.injEq] at h
      obtain ⟨h1, -⟩ := h
      subst h1
      exact ⟨hc.1, hc.2⟩
  · simp only [Except.ok.injEq, Prod.mk.injEq] at h
    obtain ⟨h1, -⟩ := h
    subst h1
    exact ⟨hc.1, hc.2⟩

/-- Inversion for an admitted card: the URL was present and the admitted
record carries the derived job id and the verbatim card posting text. -/
theorem processNode_some (env : Env) (cfg : Config) (l : List JobListing)
    (c : Card) (j : JobListing) (h : (processNode env cfg l c).1 = some j) :
    c.jobUrl ≠ "" ∧ j.job_id = jobIdOfUrl c.jobUrl ∧ j.posted_time = c.postedTime := by
  simp only [processNode] at h
  split at h
  · exact absurd h (by simp)
  next hurl =>
    split at h
    · exact absurd h (by simp)
    next hdup =>
      split at h
      · exact absurd h (by simp)
      next hlang =>
        split at h
        · exact absurd h (by simp)
        next doc hdoc =>
          split at h
          next e hpop => exact absurd h (by simp)
          next =>
            rename_i j2 tok hpop
            simp only at h
            split at h
            · have hj2 : j2 = j := Option.some.inj h
              have hst := populateJobDetails_stable cfg env.detector env.analyze
                (cardRecord env c) doc.description doc.criteria j2 tok hpop
              rw [hj2] at hst
              exact ⟨hurl, hst.2, hst.1⟩
            · exact absurd h (by simp)

/-- A card whose derived id already appears in the collection is skipped. -/
theorem processNode_dup (env : Env) (cfg : Config) (l : List JobListing)
    (c : Card) (j : JobListing) (hj : j ∈ l) (hid : j.job_id = cardId c) :
    processNode env cfg l c = (none, 0) := by
  unfold processNode
  split
  · rfl
  next hurl =>
    split
    · rfl
    next hdup =>
      exfalso
      apply hdup
      unfold isDuplicate
      rw [List.any_eq_true]
      exact ⟨j, hj, by simp [hid]⟩

/-- The page loop appends at most one record per card. -/
theorem processCards_length_le (env : Env) (cfg : Config) :
    ∀ (cs : List Card) (acc : PageAcc),
      (processCards env cfg acc cs).listings.length ≤ acc.listings.length + cs.length := by
  intro cs
  induction cs with
  | nil => intro acc; simp [processCards]
  | cons c rest ih =>
    intro acc
    simp only [processCards]
    split
    next j tok _ =>
      have := ih ⟨acc.listings ++ [j], true, acc.tokens + tok⟩
      simp only [List.length_append, List.length_singleton, List.length_cons,
        List.length_nil] at this ⊢
      omega
    next tok _ =>
      have := ih ⟨acc.listings, acc.found, acc.tokens + tok⟩
      simp only [List.length_cons] at this ⊢
      omega

/-- The page loop never removes records. -/
theorem processCards_length_ge (env : Env) (cfg : Config) :
    ∀ (cs : List Card) (acc : PageAcc),
      acc.listings.length ≤ (processCards env cfg acc cs).listings.length := by
  intro cs
  induction cs with
  | nil => intro acc; simp [processCards]
  | cons c rest ih =>
    intro acc
    simp only [processCards]
    split
    next j tok _ =>
      have := ih ⟨acc.listings ++ [j], true, acc.tokens + tok⟩
      simp only [List.length_append, List.length_singleton] at this
      omega
    next tok _ =>
      exact ih ⟨acc.listings, acc.found, acc.tokens + tok⟩

/-- Once `found_valid_jobs` is set it stays set for the rest of the page. -/
theorem processCards_found_mono (env : Env) (cfg : Config) :
    ∀ (cs : List Card) (acc : PageAcc), acc.found = true →
      (processCards env cfg acc cs).found = true := by
  intro cs
  induction cs with
  | nil => intro acc h; simpa [processCards] using h
  | cons c rest ih =>
    intro acc h
    simp only [processCards]
    split
    next j tok _ => exact ih ⟨acc.listings ++ [j], true, acc.tokens + tok⟩ rfl
    next tok _ => exact ih ⟨acc.listings, acc.found, acc.tokens + tok⟩ h

/-- A page that reports no new valid jobs appended nothing. -/
theorem processCards_found_false (env : Env) (cfg : Config) :
    ∀ (cs : List Card) (acc : PageAcc),
      (processCards env cfg acc cs).found = false →
      (processCards env cfg acc cs).listings = acc.listings := by
  intro cs
  induction cs with
  | nil => intro acc _; simp [processCards]
  | cons c rest ih =>
    intro acc h
    simp only [processCards] at h ⊢
    split at h
    next j tok heq =>
      have hmono := processCards_found_mono env cfg rest
        ⟨acc.listings ++ [j], true, acc.tokens + tok⟩ rfl
      rw [hmono] at h
      exact Bool.noConfusion h
    next tok heq =>
      exact ih ⟨acc.listings, acc.found, acc.tokens + tok⟩ h

/-- Facts about a successful `parse_job_listings` call: the collection grows
by at most one record per card on the page, never shrinks, and a `False`
report means it did not grow at all. -/
theorem parseJobListings_ok_facts (env : Env) (cfg : Config) (l : List JobListing)
    (tok : Nat) (cards : List Card) (pr : PageAcc)
    (h : parseJobListings env cfg l tok (some cards) = .ok pr) :
    pr.listings.length ≤ l.length + cards.length ∧
    l.length ≤ pr.listings.length ∧
    (pr.found = false → pr.listings = l) := by
  cases cards with
  | nil =>
    simp only [parseJobListings, Except.ok.injEq] at h
    subst h
    exact ⟨by simp, by simp, fun _ => rfl⟩
  | cons c cs =>
    simp only [parseJobListings, Except.ok.injEq] at h
    subst h
    refine ⟨?_, ?_, ?_⟩
    · have := processCards_length_le env cfg (c :: cs) ⟨l, false, tok⟩
      simpa using this
    · have := processCards_length_ge env cfg (c :: cs) ⟨l, false, tok⟩
      simpa using this
    · exact processCards_found_false env cfg (c :: cs) ⟨l, false, tok⟩

/-- Per-position loop invariant: `total_jobs` tracks the collection length,
and — because `parse_job_listings` is only entered while `total_jobs <
max_jobs` and one page appends at most `K` records — the collection length
stays below `max_jobs + K`. -/
theorem posLoop_total_inv (env : Env) (cfg : Config) (pos : String) (K : Nat)
    (hK : ∀ q p cards, env.listPage q p = some cards → cards.length ≤ K) :
    ∀ fuel l tok total cur page emp, total = l.length →
      l.length < cfg.max_jobs + K →
      ((posLoop env cfg pos fuel l tok total cur page emp).total
          = (posLoop env cfg pos fuel l tok total cur page emp).listings.length ∧
        (posLoop env cfg pos fuel l tok total cur page emp).listings.length
          < cfg.max_jobs + K) := by
  intro fuel
  induction fuel with
  | zero => intro l tok total cur page emp h1 h2; exact ⟨h1, h2⟩
  | succ fuel ih =>
    intro l tok total cur page emp h1 h2
    simp only [posLoop]
    split
    next hcond =>
      split
      next e heq =>
        split
        · exact ⟨h1, h2⟩
        · exact ih l tok total cur page (emp + 1) h1 h2
      next pr heq =>
        cases hp : env.listPage pos page with
        | none =>
          rw [hp] at heq
          exact absurd heq (by simp [parseJobListings])
        | some cards =>
          rw [hp] at heq
          obtain ⟨hle, hge, hff⟩ := parseJobListings_ok_facts env cfg l tok cards pr heq
          have hcap : cards.length ≤ K := hK pos page cards hp
          cases hf : pr.found with
          | true =>
            rw [if_pos rfl]
            split
            next hq =>
              constructor
              · show total + (pr.listings.length - l.length) = pr.listings.length
                omega
              · show pr.listings.length < cfg.max_jobs + K
                omega
            next hq =>
              exact ih pr.listings pr.tokens (total + (pr.listings.length - l.length))
                (cur + (pr.listings.length - l.length)) (page + 1) 0 (by omega) (by omega)
          | false =>
            rw [if_neg (by simp)]
            have hsame : pr.listings = l := hff hf
            split
            · rw [hsame]
              exact ⟨h1, h2⟩
            · rw [hsame]
              exact ih l pr.tokens total cur (page + 1) (emp + 1) h1 h2
    next => exact ⟨h1, h2⟩

/-- Crawl-level invariant: across positions, `total_jobs` tracks the
collection length and the length stays below `max_jobs + K`. -/
theorem crawlLoop_total_inv (env : Env) (cfg : Config) (K : Nat)
    (hK : ∀ q p cards, env.listPage q p = some cards → cards.length ≤ K) (fuel : Nat) :
    ∀ (positions : List String) (l : List JobListing) (tok total : Nat),
      total = l.length → l.length < cfg.max_jobs + K →
      ((crawlLoop env cfg fuel positions l tok total).total
          = (crawlLoop env cfg fuel positions l tok total).listings.length ∧
        (crawlLoop env cfg fuel positions l tok total).listings.length
          < cfg.max_jobs + K) := by
  intro positions
  induction positions with
  | nil => intro l tok total h1 h2; exact ⟨h1, h2⟩
  | cons pos rest ih =>
    intro l tok total h1 h2
    simp only [crawlLoop]
    split
    · exact ⟨h1, h2⟩
    · have hpos := posLoop_total_inv env cfg pos K hK fuel l tok total 0 0 0 h1 h2
      exact ih _ _ _ hpos.1 hpos.2

/-- Per-position counter invariant: `current_position_valid_jobs` is only
increased while strictly below the per-position quota, and one increase is at
most `K` (one page's worth of cards). -/
theorem posLoop_cur_inv (env : Env) (cfg : Config) (pos : String) (K : Nat)
    (hK : ∀ p cards, env.listPage pos p = some cards → cards.length ≤ K) :
    ∀ fuel l tok total cur page emp, cur < cfg.max_jobs_per_position + K →
      (posLoop env cfg pos fuel l tok total cur page emp).cur
        < cfg.max_jobs_per_position + K := by
  intro fuel
  induction fuel with
  | zero => intro l tok total cur page emp h; exact h
  | succ fuel ih =>
    intro l tok total cur page emp h
    simp only [posLoop]
    split
    next hcond =>
      split
      next e heq =>
        split
        · exact h
        · exact ih l tok total cur page (emp + 1) h
      next pr heq =>
        cases hp : env.listPage pos page with
        | none =>
          rw [hp] at heq
          exact absurd heq (by simp [parseJobListings])
        | some cards =>
          rw [hp] at heq
          obtain ⟨hle, hge, -⟩ := parseJobListings_ok_facts env cfg l tok cards pr heq
          have hcap : cards.length ≤ K := hK page cards hp
          cases hf : pr.found with
          | true =>
            rw [if_pos rfl]
            split
            next hq =>
              show cur + (pr.listings.length - l.length) < cfg.max_jobs_per_position + K
              omega
            next hq =>
              exact ih pr.listings pr.tokens (total + (pr.listings.length - l.length))
                (cur + (pr.listings.length - l.length)) (page + 1) 0 (by omega)
          | false =>
            rw [if_neg (by simp)]
            split
            · exact h
            · exact ih pr.listings pr.tokens total cur (page + 1) (emp + 1) h
    next => exact h

/-- With every page of this position fetching successfully and yielding zero
cards, the per-position loop makes exactly `MAX_EMPTY_PAGES = 3` page
attempts, leaves every counter and the collection untouched, and stops. -/
theorem posLoop_empty (env : Env) (cfg : Config) (pos : String)
    (hE : ∀ p, env.listPage pos p = some [])
    (hq : 0 < cfg.max_jobs_per_position) :
    ∀ f l tok total page, total < cfg.max_jobs →
      posLoop env cfg pos (f + 3) l tok total 0 page 0
        = ⟨l, tok, total, 0, 3⟩ := by
  intro f l tok total page htot
  show posLoop env cfg pos (f + 1 + 1 + 1) l tok total 0 page 0 = ⟨l, tok, total, 0, 3⟩
  have hstep : ∀ fuel page' emp, emp + 1 < MAX_EMPTY_PAGES →
      posLoop env cfg pos (fuel + 1) l tok total 0 page' emp
        = { posLoop env cfg pos fuel l tok total 0 (page' + 1) (emp + 1)
              with attempts :=
                (posLoop env cfg pos fuel l tok total 0 (page' + 1) (emp + 1)).attempts + 1 } := by
    intro fuel page' emp hemp
    simp only [posLoop, hE page', parseJobListings]
    rw [if_pos ⟨hq, htot⟩, if_neg (by simp), if_neg (by omega)]
  have hlast : ∀ fuel page', posLoop env cfg pos (fuel + 1) l tok total 0 page' 2
      = ⟨l, tok, total, 0, 1⟩ := by
    intro fuel page'
    simp only [posLoop, hE page', parseJobListings]
    rw [if_pos ⟨hq, htot⟩, if_neg (by simp), if_pos (by simp [MAX_EMPTY_PAGES])]
  rw [hstep (f + 1 + 1) page 0 (by simp [MAX_EMPTY_PAGES]),
    hstep (f + 1) (page + 1) 1 (by simp [MAX_EMPTY_PAGES]),
    hlast f (page + 1 + 1)]

/-! ### Claim theorems -/

/-- C1, counterexample: with global quota `max_jobs = 1` and a first listing
page carrying two acceptable cards, `scrape_jobs` admits 2 records — the
collection exceeds the global quota `G`, because `parse_job_listings` appends
every accepted card of a page and the quota is only consulted between pages. -/
theorem c1_global_quota_counterexample :
    cfgG1.max_jobs = 1 ∧
    (scrapeJobs envTwo cfgG1 10).listings.length = 2 ∧
    ¬ (scrapeJobs envTwo cfgG1 10).listings.length ≤ cfgG1.max_jobs :=
  ⟨rfl, by decide, by decide⟩

/-- C1, amended: the crawl stops opening new pages and positions once the
collection has reached the global quota `G = max_jobs`, so the collection can
overshoot `G` only within the final parsed page: if every fetched listing page
carries at most `K` cards, the final collection holds fewer than `G + K`
records (at most `G - 1 + K`). -/
theorem c1_global_quota_page_bound (env : Env) (cfg : Config) (fuel K : Nat)
    (hmax : 1 ≤ cfg.max_jobs)
    (hK : ∀ q p cards, env.listPage q p = some cards → cards.length ≤ K) :
    (scrapeJobs env cfg fuel).listings.length < cfg.max_jobs + K :=
  (crawlLoop_total_inv env cfg K hK fuel cfg.positions [] 0 0 rfl
    (by simp only [List.length_nil]; omega)).2

/-- C1, witness: the amended bound at the concrete two-card world with
`max_jobs = 1` and page size 2. -/
theorem c1_global_quota_page_bound_witness :
    (scrapeJobs envTwo cfgG1 10).listings.length < cfgG1.max_jobs + 2 :=
  c1_global_quota_page_bound envTwo cfgG1 10 2 (by decide)
    (by
      intro q p cards h
      simp only [envTwo] at h
      repeat' split at h
      all_goals (cases h; decide))

/-- C2, counterexample: the spec's concrete scenario — per-position quota 5,
three pages of two new accepted cards each.  The driver checks the quota only
between pages, so the third page is parsed in full: 6 records are admitted and
`current_position_valid_jobs = 6`, not 5. -/
theorem c2_per_position_counterexample :
    cfgP5.max_jobs_per_position = 5 ∧
    (posLoop envSix cfgP5 "Backend Engineer" 10 [] 0 0 0 0 0).cur = 6 ∧
    (posLoop envSix cfgP5 "Backend Engineer" 10 [] 0 0 0 0 0).listings.length = 6 ∧
    (posLoop envSix cfgP5 "Backend Engineer" 10 [] 0 0 0 0 0).cur ≠ 5 :=
  ⟨rfl, by decide, by decide, by decide⟩

/-- C2, amended: a position stops requesting pages once its counter reaches
the per-position quota, but within a page no quota check runs, so a position's
contribution can exceed the quota by at most one page's worth minus one: with
pages of at most `K` cards, `current_position_valid_jobs` stays below
`max_jobs_per_position + K` (in the spec's scenario: 6 admitted, counter 6). -/
theorem c2_per_position_page_bound (env : Env) (cfg : Config) (pos : String)
    (fuel K : Nat) (l : List JobListing) (tok total page emp : Nat)
    (hq : 1 ≤ cfg.max_jobs_per_position)
    (hK : ∀ p cards, env.listPage pos p = some cards → cards.length ≤ K) :
    (posLoop env cfg pos fuel l tok total 0 page emp).cur
      < cfg.max_jobs_per_position + K :=
  posLoop_cur_inv env cfg pos K hK fuel l tok total 0 page emp (by omega)

/-- C2, witness: the amended bound at the spec's concrete scenario. -/
theorem c2_per_position_page_bound_witness :
    (posLoop envSix cfgP5 "Backend Engineer" 10 [] 0 0 0 0 0).cur
      < cfgP5.max_jobs_per_position + 2 :=
  c2_per_position_page_bound envSix cfgP5 "Backend Engineer" 10 2 [] 0 0 0 0
    (by decide)
    (by
      intro p cards h
      simp only [envSix] at h
      repeat' split at h
      all_goals (cases h; decide))

/-- C3, counterexample: with no desired language configured
(`desired_language = ""`), a fresh card with a URL whose title is detected as
`"en"` is rejected at the title checkpoint — the checkpoints compare the
detected code with `""` instead of passing unconditionally, and the whole
crawl admits nothing. -/
theorem c3_empty_language_counterexample :
    cfgNoLang.desired_language = "" ∧
    cardA.jobUrl ≠ "" ∧
    isDuplicate [] (cardId cardA) cardA.title cardA.company = false ∧
    processNode envTwo cfgNoLang [] cardA = (none, 0) ∧
    (scrapeJobs envTwo cfgNoLang 10).listings = [] :=
  ⟨rfl, by decide, by decide, by decide, by decide⟩

/-- C3, amended: when no desired language is configured the language
checkpoints compare the lowered detected code against the empty string, so
every candidate whose detected title language is non-empty is rejected before
the detail fetch (instead of passing unconditionally). -/
theorem c3_empty_language_rejects (env : Env) (cfg : Config)
    (l : List JobListing) (c : Card)
    (hlang : cfg.desired_language = "")
    (hdet : pyLower (env.detector.detect c.title) ≠ "") :
    processNode env cfg l c = (none, 0) := by
  simp only [processNode]
  split
  · rfl
  split
  · rfl
  have hcond : pyLower (cardRecord env c).title_lang ≠ cfg.desired_language := by
    rw [hlang]
    exact hdet
  rw [if_pos hcond]

/-- C3, witness: the amended rejection at a concrete English-titled card under
the empty desired language. -/
theorem c3_empty_language_rejects_witness :
    processNode envTwo cfgNoLang [] cardB = (none, 0) :=
  c3_empty_language_rejects envTwo cfgNoLang [] cardB rfl (by decide)

/-- C4, counterexample: a card whose posting text is the relative phrase
`"3 days ago"` is admitted with `posted_time` equal to that verbatim text — no
conversion to an absolute timestamp against a run-level "now" ever happens on
the LinkedIn path. -/
theorem c4_posted_time_counterexample :
    cardA.postedTime = "3 days ago" ∧
    (processNode envTwo cfgG1 [] cardA).1 = some jobA ∧
    jobA.posted_time = "3 days ago" :=
  ⟨rfl, by decide, rfl⟩

/-- C4, amended: the LinkedIn mapper stores the raw relative posting text
unconverted (`posted_time` of every admitted record equals the card's
`listdate` text); the Indeed mapper stores an absolute `posted_time` computed
from the card's own epoch `pubDate` (divided by 1000, no "now" involved), and
the per-run instant captured once at construction is used only for
`date_analyzed`, which is therefore identical across all records of a run. -/
theorem c4_posted_time_amended :
    (∀ (env : Env) (cfg : Config) (l : List JobListing) (c : Card) (j : JobListing),
        (processNode env cfg l c).1 = some j → j.posted_time = c.postedTime) ∧
    (∀ (st : IndeedState) (d : IndeedCard),
        (extractJobListingData st d).posted_time = (d.pubDate : Rat) / 1000) ∧
    (∀ (st : IndeedState) (d d2 : IndeedCard),
        (extractJobListingData st d).date_analyzed
          = (extractJobListingData st d2).date_analyzed) :=
  ⟨fun env cfg l c j h => (processNode_some env cfg l c j h).2.2,
   fun _ _ => rfl, fun _ _ _ => rfl⟩

/-- C4, witness: the amended first conjunct at a concrete admitted card. -/
theorem c4_posted_time_amended_witness : jobB.posted_time = cardB.postedTime :=
  c4_posted_time_amended.1 envTwo cfgG1 [] cardB jobB (by decide)

/-- C5: the AI capability is invoked only when AI analysis is enabled and the
lowered detected description language equals the configured desired language;
with analysis disabled it is never invoked.  Stated as non-interference: under
the negation of the gate, the enrichment result is independent of the AI
capability — on both the LinkedIn path (`populate_job_details`) and the Indeed
path (`extract_job_details_data`). -/
theorem c5_ai_gating :
    (∀ (cfg : Config) (det : LanguageDetector)
        (a1 a2 : String → Except Unit JobAIanalysis) (j : JobListing)
        (desc : String) (crit : List (String × String)),
        cfg.should_analyze = false ∨ pyLower (det.detect desc) ≠ cfg.desired_language →
        populateJobDetails cfg det a1 j desc crit
          = populateJobDetails cfg det a2 j desc crit) ∧
    (∀ (st : IndeedState) (a1 a2 : String → Except Unit JobAIanalysis)
        (j : IndeedJobListing) (desc : String),
        st.should_analyze = false ∨ pyLower (st.detector.detect desc) ≠ st.desired_language →
        extractJobDetailsData { st with analyze := a1 } j desc
          = extractJobDetailsData { st with analyze := a2 } j desc) := by
  constructor
  · intro cfg det a1 a2 j desc crit h
    have hc : ¬ (cfg.should_analyze = true ∧
        pyLower (det.detect desc) = cfg.desired_language) := by
      rintro ⟨ha, hl⟩
      cases h with
      | inl h0 => rw [h0] at ha; exact Bool.noConfusion ha
      | inr h0 => exact h0 hl
    simp only [populateJobDetails]
    rw [if_neg hc, if_neg hc]
  · intro st a1 a2 j desc h
    have hc : ¬ (st.should_analyze = true ∧
        pyLower (st.detector.detect desc) = st.desired_language) := by
      rintro ⟨ha, hl⟩
      cases h with
      | inl h0 => rw [h0] at ha; exact Bool.noConfusion ha
      | inr h0 => exact h0 hl
    simp only [extractJobDetailsData]
    rw [if_neg hc, if_neg hc]

/-- C5, witness: with analysis disabled, enrichment with a failing and with a
succeeding AI capability coincide. -/
theorem c5_ai_gating_witness :
    populateJobDetails cfgG1 detEn analyzeFail jobA "Great role" []
      = populateJobDetails cfgG1 detEn analyzeOk jobA "Great role" [] :=
  c5_ai_gating.1 cfgG1 detEn analyzeFail analyzeOk jobA "Great role" [] (Or.inl rfl)

/-- C6, counterexample: AI enabled, the card's title and description languages
both match the desired language, and the AI call fails — yet the record is NOT
admitted: `extract_job_data` re-raises, the per-card handler catches the
exception, and the card is skipped entirely (the page simply reports no new
valid job), contradicting "enrichment continues with pre-call values and the
record may still be admitted". -/
theorem c6_ai_failure_counterexample :
    cfgAI.should_analyze = true ∧
    pyLower (detEn.detect cardA.title) = cfgAI.desired_language ∧
    pyLower (detEn.detect docEn.description) = cfgAI.desired_language ∧
    envAIFail.analyze docEn.description = .error () ∧
    processNode envAIFail cfgAI [] cardA = (none, 0) ∧
    parseJobListings envAIFail cfgAI [] 0 (some [cardA]) = .ok ⟨[], false, 0⟩ :=
  ⟨rfl, by decide, by decide, rfl, by decide, by rfl⟩

/-- C6, amended: an AI failure is fatal for the record but not for the crawl —
`populate_job_details` propagates the re-raised exception, and a card whose
processing yields nothing is skipped while the rest of the page (and the
crawl) continues unchanged. -/
theorem c6_ai_failure_amended :
    (∀ (cfg : Config) (det : LanguageDetector)
        (analyze : String → Except Unit JobAIanalysis) (j : JobListing)
        (desc : String) (crit : List (String × String)),
        cfg.should_analyze = true →
        pyLower (det.detect desc) = cfg.desired_language →
        analyze desc = .error () →
        populateJobDetails cfg det analyze j desc crit = .error ()) ∧
    (∀ (env : Env) (cfg : Config) (l : List JobListing) (t : Nat) (c : Card)
        (rest : List Card),
        processNode env cfg l c = (none, 0) →
        parseJobListings env cfg l t (some (c :: rest))
          = parseJobListings env cfg l t (some rest)) := by
  constructor
  · intro cfg det analyze j desc crit ha hl hfail
    simp only [populateJobDetails]
    rw [if_pos ⟨ha, hl⟩, hfail]
  · intro env cfg l t c rest h
    cases rest with
    | nil => simp only [parseJobListings, processCards, h, Nat.add_zero]
    | cons r rs => simp only [parseJobListings, processCards, h, Nat.add_zero]

/-- C6, witness: the amended first conjunct at the concrete failing world. -/
theorem c6_ai_failure_amended_witness :
    populateJobDetails cfgAI detEn analyzeFail jobA docEn.description [] = .error () :=
  c6_ai_failure_amended.1 cfgAI detEn analyzeFail jobA docEn.description []
    rfl (by decide) rfl

/-- C7: dedup idempotence.  Processing the same raw card twice on one page
appends exactly what processing it once appends; and once the record admitted
for a card is anywhere in the collection (same page or a later page), a
re-occurrence of that card is skipped before any append — the duplicate check
matches on the derived `job_id`. -/
theorem c7_dedup_idempotence :
    (∀ (env : Env) (cfg : Config) (l : List JobListing) (t : Nat) (c : Card),
        (processCards env cfg ⟨l, false, t⟩ [c, c]).listings
          = (processCards env cfg ⟨l, false, t⟩ [c]).listings) ∧
    (∀ (env : Env) (cfg : Config) (l l2 : List JobListing) (c : Card) (j : JobListing),
        (processNode env cfg l c).1 = some j → j ∈ l2 →
        (processNode env cfg l2 c).1 = none) := by
  have hskip : ∀ (env : Env) (cfg : Config) (l l2 : List JobListing) (c : Card)
      (j : JobListing), (processNode env cfg l c).1 = some j → j ∈ l2 →
      processNode env cfg l2 c = (none, 0) := by
    intro env cfg l l2 c j h hj
    have hs := processNode_some env cfg l c j h
    exact processNode_dup env cfg l2 c j hj hs.2.1
  constructor
  · intro env cfg l t c
    cases hpn : processNode env cfg l c with
    | mk oj tok =>
      cases oj with
      | some j =>
        have h1 : (processNode env cfg l c).1 = some j := by rw [hpn]
        have h2 := hskip env cfg l (l ++ [j]) c j h1 (by simp)
        simp only [processCards, hpn, h2]
      | none => simp only [processCards, hpn]
  · intro env cfg l l2 c j h hj
    rw [hskip env cfg l l2 c j h hj]

/-- C7, witness: a concrete admitted record blocks a re-occurrence of its
card. -/
theorem c7_dedup_idempotence_witness :
    (processNode envTwo cfgG1 [jobA] cardA).1 = none :=
  c7_dedup_idempotence.2 envTwo cfgG1 [] [jobA] cardA jobA (by decide) (by simp)

/-- C8: empty-page termination.  With every listing fetch of a position
succeeding with zero cards, the per-position driver makes exactly
`MAX_EMPTY_PAGES = 3` page attempts, changes nothing, and stops; at the crawl
level the run simply continues with the remaining positions. -/
theorem c8_empty_page_termination :
    (∀ (env : Env) (cfg : Config) (pos : String) (f : Nat) (l : List JobListing)
        (tok total : Nat),
        (∀ p, env.listPage pos p = some []) →
        0 < cfg.max_jobs_per_position → total < cfg.max_jobs →
        posLoop env cfg pos (f + 3) l tok total 0 0 0 = ⟨l, tok, total, 0, 3⟩) ∧
    (∀ (env : Env) (cfg : Config) (pos : String) (rest : List String) (f : Nat)
        (l : List JobListing) (tok total : Nat),
        (∀ p, env.listPage pos p = some []) →
        0 < cfg.max_jobs_per_position →
        crawlLoop env cfg (f + 3) (pos :: rest) l tok total
          = crawlLoop env cfg (f + 3) rest l tok total) := by
  constructor
  · intro env cfg pos f l tok total hE hq htot
    exact posLoop_empty env cfg pos hE hq f l tok total 0 htot
  · intro env cfg pos rest f l tok total hE hq
    simp only [crawlLoop]
    split
    next hge =>
      cases rest with
      | nil => simp [crawlLoop]
      | cons p2 ps =>
        simp only [crawlLoop]
        rw [if_pos hge]
    next hlt =>
      rw [posLoop_empty env cfg pos hE hq f l tok total 0 (by omega)]

/-- C8, witness: the empty-page bound at the concrete all-empty world. -/
theorem c8_empty_page_termination_witness :
    posLoop envEmpty cfgG1 "Software Developer" (0 + 3) [] 0 0 0 0 0
      = ⟨[], 0, 0, 0, 3⟩ :=
  c8_empty_page_termination.1 envEmpty cfgG1 "Software Developer" 0 [] 0 0
    (fun _ => rfl) (by decide) (by decide)

/-- C9, counterexample: for the URL
`https://www.linkedin.com/jobs/view/backend-dev-123?refId=abc` the code's
derivation (`split('-')[-1].split('?')[0]`) yields `"123"`, while the trailing
path segment with the query stripped is `"backend-dev-123"` — the two
disagree whenever the last path segment contains a hyphen. -/
theorem c9_job_id_counterexample :
    jobIdOfUrl "https://www.linkedin.com/jobs/view/backend-dev-123?refId=abc" = "123" ∧
    specJobIdOfUrl "https://www.linkedin.com/jobs/view/backend-dev-123?refId=abc"
      = "backend-dev-123" ∧
    jobIdOfUrl "https://www.linkedin.com/jobs/view/backend-dev-123?refId=abc"
      ≠ specJobIdOfUrl "https://www.linkedin.com/jobs/view/backend-dev-123?refId=abc" :=
  ⟨by decide, by decide, by decide⟩

/-- C9, amended: `job_id` is derived deterministically from the listing URL as
the substring after the URL's last hyphen, truncated at the first `?` of that
substring (not the trailing path segment); every admitted record carries
exactly this derived id, and two cards with the same URL receive the same id. -/
theorem c9_job_id_amended :
    (∀ (env : Env) (cfg : Config) (l : List JobListing) (c : Card) (j : JobListing),
        (processNode env cfg l c).1 = some j → j.job_id = jobIdOfUrl c.jobUrl) ∧
    (∀ c c2 : Card, c.jobUrl = c2.jobUrl → cardId c = cardId c2) :=
  ⟨fun env cfg l c j h => (processNode_some env cfg l c j h).2.1,
   fun c c2 h => by simp only [cardId, h]⟩

/-- C9, witness: the amended first conjunct at a concrete admitted card. -/
theorem c9_job_id_amended_witness : jobA.job_id = jobIdOfUrl cardA.jobUrl :=
  c9_job_id_amended.1 envTwo cfgG1 [] cardA jobA (by decide)

/-- C10: for any two non-whitespace inputs, `detect` returns the same language
code — the model runs on the fixed literal `"Hello world"`, so the output is
independent of the input text — whereas `detect_with_confidence` does run the
model on its actual input (witnessed by a model on which it distinguishes two
inputs). -/
theorem c10_detect_constant :
    (∀ (d : LanguageDetector) (s t : String),
        pyStrip s ≠ "" → pyStrip t ≠ "" → d.detect s = d.detect t) ∧
    (∃ (d : LanguageDetector) (s t : String),
        pyStrip s ≠ "" ∧ pyStrip t ≠ "" ∧
        d.detectWithConfidence s ≠ d.detectWithConfidence t) := by
  constructor
  · intro d s t hs ht
    simp only [LanguageDetector.detect]
    rw [if_neg hs, if_neg ht]
  · exact ⟨detEcho, "aa", "bb", by decide, by decide, by decide⟩

/-- C10, witness: two different non-whitespace inputs yield the same detected
code on a concrete detector. -/
theorem c10_detect_constant_witness :
    detEn.detect "Hola mundo" = detEn.detect "Bonjour le monde" :=
  c10_detect_constant.1 detEn "Hola mundo" "Bonjour le monde" (by decide) (by decide)

end JobOffer
